import Mathlib

/-!
Shallow embedding of the core list-management classes of sjb-tools
(`sjb/td/classes.py`: `PriorityEnum`, `TodoMatcher`, `Todo`, `TodoList`).

Python machine state is modelled by explicit state passing: every mutating
method becomes a function from the old `TodoList` to an `Except Err` of the
new list together with its Python return value.  Wall-clock reads
(`time.time()`) become an explicit `now : Nat` argument.  Python `set`
becomes `Finset String`; `None`-able fields become `Option`.

The base module `sjb.common.base` (classes `Item`, `ItemList`, the error
types) is not part of the sources at hand; its behavior is modelled from
the specification where indicated.
-/

/-- Errors of `sjb.common.base`.  Modelled from the spec: ValidationError,
IllegalStateError (carries operation name and reason), InvalidIDError.
`decodeError` stands for the untyped KeyError/TypeError a malformed JSON
document would raise in Python. -/
inductive Err where
  | validationError (msg : String)
  | illegalStateError (op : String) (msg : String)
  | invalidIDError (oid : Nat)
  | decodeError
deriving DecidableEq

/-- `PriorityEnum`: URGENT = 1, DEFAULT = 2, LONG_TERM = 3. -/
inductive PriorityEnum where
  | URGENT
  | DEFAULT
  | LONG_TERM
deriving DecidableEq

/-- The `.value` of each enum member. -/
def PriorityEnum.value : PriorityEnum → Int
  | .URGENT => 1
  | .DEFAULT => 2
  | .LONG_TERM => 3

/-- `[e.value for e in PriorityEnum]`. -/
def PriorityEnum.values : List Int :=
  [PriorityEnum.URGENT, PriorityEnum.DEFAULT, PriorityEnum.LONG_TERM].map PriorityEnum.value

/-- A `Todo` item.  The `oid` field comes from the base class `Item`;
timestamps are abstract `Nat` clock values. -/
structure Todo where
  oid : Option Nat
  text : String
  priority : Int
  tags : Finset String
  finished : Bool
  created_date : Option Nat
  finished_date : Option Nat
deriving DecidableEq

/-- The `Todo` constructor: defaults priority to `DEFAULT.value`, tags to the
empty set, finished to `False`; stores the rest verbatim. -/
def Todo.make (text : String) (priority : Option Int) (tags : Option (Finset String))
    (finished : Option Bool) (created_date : Option Nat) (finished_date : Option Nat)
    (oid : Option Nat) : Todo :=
  { oid := oid
    text := text
    priority := priority.getD PriorityEnum.DEFAULT.value
    tags := tags.getD ∅
    finished := finished.getD false
    created_date := created_date
    finished_date := finished_date }

/-- `Todo._validate`, transcribed check for check in source order.  Error
messages keep the static part of the Python message (the dynamic
`str(value)` suffix is dropped).  The base `Item._validate` only checks the
type of `oid`, which the typed embedding guarantees. -/
def Todo.validate (t : Todo) : Except Err Unit :=
  if t.text = "" then .error (.validationError "Bad todo text")
  else if t.priority ∉ PriorityEnum.values then .error (.validationError "Bad priority")
  else if ¬ (∀ tag ∈ t.tags, tag ≠ "") then .error (.validationError "Bad tag")
  else if t.created_date = none then .error (.validationError "Non float created_date")
  else if t.finished ∧ t.finished_date = none then
    .error (.validationError "Todo finished but no finished_date")
  else if ¬ t.finished ∧ t.finished_date ≠ none then
    .error (.validationError "Non finished todo has finished_date")
  else .ok ()

/-- `TodoMatcher`: an optional tag set, priority and finished criterion. -/
structure TodoMatcher where
  tags : Option (Finset String)
  priority : Option Int
  finished : Option Bool
deriving DecidableEq

/-- `TodoMatcher.matches`: true only if the todo matches ALL conditions.
`(self.tags or [])` makes a `None` tag set behave as the empty set. -/
def TodoMatcher.matches (m : TodoMatcher) (item : Todo) : Bool :=
  if m.priority.isSome ∧ m.priority ≠ some item.priority then false
  else if ¬ ((m.tags.getD ∅) ⊆ item.tags) then false
  else if m.finished.isSome ∧ m.finished ≠ some item.finished then false
  else true

/-- `TodoList` state.  Fields `version`, `modified_date`, `modified`,
`next_oid` and `items` belong to the base class `ItemList` and are modelled
from the spec; `tag_set` is the TodoList-specific derived index. -/
structure TodoList where
  version : Option String
  modified_date : Option Nat
  modified : Bool
  next_oid : Nat
  items : List Todo
  tag_set : Finset String
deriving DecidableEq

/-- The `TodoList` constructor: empty item list, empty tag set.  Modelled
from the spec: the base class starts with an empty ordered item sequence,
an oid counter whose first issued oid is 1, and the list not marked
modified. -/
def TodoList.make (version : Option String) (modified_date : Option Nat) : TodoList :=
  { version := version
    modified_date := modified_date
    modified := false
    next_oid := 1
    items := []
    tag_set := ∅ }

/-- Modelled from the spec: `ItemList._mark_modified` sets the modified flag
and advances `modified_date` to the current time. -/
def TodoList.mark_modified (l : TodoList) (now : Nat) : TodoList :=
  { l with modified := true, modified_date := some now }

/-- Modelled from the spec: `ItemList.get_item` returns the item with the
given oid, or fails with `InvalidIDError`. -/
def TodoList.get_item (l : TodoList) (oid : Nat) : Except Err Todo :=
  match l.items.find? (fun i => i.oid == some oid) with
  | some item => .ok item
  | none => .error (.invalidIDError oid)

/-- Modelled from the spec: the base `ItemList.add_item`.  With
`initial_load` false the item must arrive without an oid (else
`IllegalStateError`); the list assigns the next oid, marks itself modified
and appends.  With `initial_load` true the item must already carry an oid
(else `IllegalStateError`); the oid counter advances to stay above it and
no modification bookkeeping happens. -/
def TodoList.add_item_base (l : TodoList) (item : Todo) (initial_load : Bool) (now : Nat) :
    Except Err (TodoList × Todo) :=
  if initial_load then
    match item.oid with
    | none => .error (.illegalStateError "ItemList.add_item" "initial load item must have an oid")
    | some oid =>
      .ok ({ l with next_oid := max l.next_oid (oid + 1), items := l.items ++ [item] }, item)
  else
    match item.oid with
    | some _ => .error (.illegalStateError "ItemList.add_item" "new item cannot have an oid")
    | none =>
      let item2 := { item with oid := some l.next_oid }
      .ok ({ (l.mark_modified now) with
              next_oid := l.next_oid + 1, items := l.items ++ [item2] }, item2)

/-- `TodoList._update_object_maps`: adds every tag of `item` to `tag_set`. -/
def TodoList.update_object_maps (l : TodoList) (item : Todo) : TodoList :=
  { l with tag_set := l.tag_set ∪ item.tags }

/-- `TodoList._recompute_object_maps`: resets `tag_set` and re-adds the tags
of every item, in iteration order. -/
def TodoList.recompute_object_maps (l : TodoList) : TodoList :=
  { l with tag_set := l.items.foldl (fun s i => s ∪ i.tags) ∅ }

/-- Replaces the first item whose oid matches, modelling Python's in-place
mutation of the object returned by `get_item`. -/
def replaceByOid : List Todo → Nat → Todo → List Todo
  | [], _, _ => []
  | i :: rest, oid, item2 =>
    if i.oid == some oid then item2 :: rest else i :: replaceByOid rest oid item2

/-- `TodoList.add_item`: calls the base add, then for fresh additions checks
that `created_date` is unset and the item not finished, stamps
`created_date` with the current time, forces `finished` to false (mutating
the just-appended object in place), and finally extends the object maps. -/
def TodoList.add_item (l : TodoList) (item : Todo) (initial_load : Bool) (now : Nat) :
    Except Err (TodoList × Todo) :=
  match l.add_item_base item initial_load now with
  | .error e => .error e
  | .ok (l1, item1) =>
    if ¬ initial_load then
      if item1.created_date ≠ none then
        .error (.illegalStateError "TodoList.add_item" "new item cant have created date")
      else if item1.finished then
        .error (.illegalStateError "TodoList.add_item" "new item cannot be finished already")
      else
        let item2 := { item1 with created_date := some now, finished := false }
        let l2 : TodoList := { l1 with items := l1.items.dropLast ++ [item2] }
        .ok (l2.update_object_maps item2, item2)
    else
      .ok (l1.update_object_maps item1, item1)

/-- `TodoList.complete_item`: fetches the item, rejects completing an
already-finished item and un-completing a not-finished one, then sets or
clears `finished` / `finished_date`; the list is marked modified only in
the completing branch. -/
def TodoList.complete_item (l : TodoList) (oid : Nat) (set_complete : Bool) (now : Nat) :
    Except Err (TodoList × Todo) :=
  match l.get_item oid with
  | .error e => .error e
  | .ok item =>
    if set_complete ∧ item.finished then
      .error (.illegalStateError "TodoList.complete_todo" "specified todo was already completed")
    else if ¬ set_complete ∧ ¬ item.finished then
      .error
        (.illegalStateError "TodoList.complete_todo" "specified todo was not already completed")
    else if set_complete then
      let item2 := { item with finished := true, finished_date := some now }
      let l2 := { (l.mark_modified now) with items := replaceByOid l.items oid item2 }
      .ok (l2, item2)
    else
      let item2 := { item with finished := false, finished_date := none }
      let l2 := { l with items := replaceByOid l.items oid item2 }
      .ok (l2, item2)

/-- Removes the first item with the given oid, for the base `remove_item`. -/
def removeByOid : List Todo → Nat → List Todo
  | [], _ => []
  | i :: rest, oid => if i.oid == some oid then rest else i :: removeByOid rest oid

/-- Modelled from the spec: the base `ItemList.remove_item` deletes and
returns the item with the given oid (failing with `InvalidIDError` when
absent) and marks the list modified. -/
def TodoList.remove_item_base (l : TodoList) (oid : Nat) (now : Nat) :
    Except Err (TodoList × Todo) :=
  match l.get_item oid with
  | .error e => .error e
  | .ok item => .ok ({ (l.mark_modified now) with items := removeByOid l.items oid }, item)

/-- `TodoList.remove_item`: base removal followed by a full recomputation of
the object maps. -/
def TodoList.remove_item (l : TodoList) (oid : Nat) (now : Nat) :
    Except Err (TodoList × Todo) :=
  match l.remove_item_base oid now with
  | .error e => .error e
  | .ok (l1, removed) => .ok (l1.recompute_object_maps, removed)

/-- Result of `TodoList.update_item`: the new list state, the returned item,
and a ghost flag recording whether the body of
`if original_item != item:` ran (i.e. `_mark_modified` and
`_recompute_object_maps` fired). -/
structure UpdateResult where
  list : TodoList
  item : Todo
  recomputed : Bool
deriving DecidableEq

/-- `TodoList.update_item`: fetches the item, overwrites only the non-`None`
arguments (in place), and when the result differs from the deep-copied
pre-update snapshot marks the list modified and recomputes the object
maps. -/
def TodoList.update_item (l : TodoList) (oid : Nat) (text : Option String)
    (priority : Option Int) (tags : Option (Finset String)) (now : Nat) :
    Except Err UpdateResult :=
  match l.get_item oid with
  | .error e => .error e
  | .ok item =>
    let item2 := { item with
      text := text.getD item.text
      priority := priority.getD item.priority
      tags := tags.getD item.tags }
    let l1 : TodoList := { l with items := replaceByOid l.items oid item2 }
    if item ≠ item2 then
      .ok ⟨(l1.mark_modified now).recompute_object_maps, item2, true⟩
    else
      .ok ⟨l1, item2, false⟩

/-- JSON-compatible values, the codomain of `to_dict`.  A Python dict is an
insertion-ordered association list. -/
inductive JVal where
  | null : JVal
  | jbool (b : Bool) : JVal
  | jint (n : Int) : JVal
  | jnat (n : Nat) : JVal
  | jstr (s : String) : JVal
  | jstrlist (l : List String) : JVal
  | jarr (l : List JVal) : JVal
  | jobj (l : List (String × JVal)) : JVal

/-- An optional timestamp as a JSON value. -/
def optNatToJ : Option Nat → JVal
  | none => .null
  | some n => .jnat n

/-- An optional string as a JSON value. -/
def optStrToJ : Option String → JVal
  | none => .null
  | some s => .jstr s

/-- Decodes a JSON value back to an optional timestamp. -/
def jToOptNat : JVal → Option (Option Nat)
  | .null => some none
  | .jnat n => some (some n)
  | _ => none

/-- Decodes a JSON value back to an optional string. -/
def jToOptStr : JVal → Option (Option String)
  | .null => some none
  | .jstr s => some (some s)
  | _ => none

/-- `Todo._to_dict`: the stable, explicitly-keyed record of one todo; tags
are written as a sorted list. -/
def Todo.to_dict (t : Todo) : List (String × JVal) :=
  [("oid", optNatToJ t.oid),
   ("tags", .jstrlist (t.tags.sort (· ≤ ·))),
   ("priority", .jint t.priority),
   ("text", .jstr t.text),
   ("finished", .jbool t.finished),
   ("created_date", optNatToJ t.created_date),
   ("finished_date", optNatToJ t.finished_date)]

/-- `Todo.from_dict`: reads the seven fields back and rebuilds the todo
through the constructor (which turns the tag list back into a set).
`none` models the exception Python raises on a missing or ill-typed
field. -/
def Todo.from_dict (d : List (String × JVal)) : Option Todo :=
  match d.lookup "text", d.lookup "tags", d.lookup "priority", d.lookup "finished",
        d.lookup "created_date", d.lookup "finished_date", d.lookup "oid" with
  | some (.jstr text), some (.jstrlist tags), some (.jint priority), some (.jbool finished),
    some cd, some fd, some oidv => do
    let created_date ← jToOptNat cd
    let finished_date ← jToOptNat fd
    let oid ← jToOptNat oidv
    return Todo.make text (some priority) (some tags.toFinset) (some finished)
      created_date finished_date oid
  | _, _, _, _, _, _, _ => none

/-- `TodoList.to_dict`: the single-key document wrapping version,
modification date and the item records in list order. -/
def TodoList.to_dict (l : TodoList) : List (String × JVal) :=
  [("todo_list", .jobj
    [("version", optStrToJ l.version),
     ("modified_date", optNatToJ l.modified_date),
     ("todos", .jarr (l.items.map (fun e => .jobj e.to_dict)))])]

/-- The re-adding loop of `TodoList.from_dict`: decodes each todo record and
adds it with `initial_load` true (the clock argument is irrelevant on that
path and passed as 0). -/
def addAllFromJson : TodoList → List JVal → Except Err TodoList
  | l, [] => .ok l
  | l, j :: rest =>
    match j with
    | .jobj d =>
      match Todo.from_dict d with
      | some item =>
        match l.add_item item true 0 with
        | .ok (l1, _) => addAllFromJson l1 rest
        | .error e => .error e
      | none => .error .decodeError
    | _ => .error .decodeError

/-- `TodoList.from_dict`: unwraps the `todo_list` key, reads `version` and
`modified_date` with `None` defaulting, constructs the list and re-adds
every decoded todo with `initial_load` true. -/
def TodoList.from_dict (d : List (String × JVal)) : Except Err TodoList :=
  match d.lookup "todo_list" with
  | some (.jobj inner) =>
    match jToOptStr ((inner.lookup "version").getD .null),
          jToOptNat ((inner.lookup "modified_date").getD .null),
          inner.lookup "todos" with
    | some version, some modified_date, some (.jarr js) =>
      addAllFromJson (TodoList.make version modified_date) js
    | _, _, _ => .error .decodeError
  | _ => .error .decodeError

/-- One mutating call on a `TodoList`, for stating state-reachability
properties. -/
inductive Op where
  | add (item : Todo) (initial_load : Bool) (now : Nat)
  | remove (oid : Nat) (now : Nat)
  | update (oid : Nat) (text : Option String) (priority : Option Int)
      (tags : Option (Finset String)) (now : Nat)
  | complete (oid : Nat) (set_complete : Bool) (now : Nat)

/-- Applies one call; a raised error aborts the run (`none`). -/
def applyOp (l : TodoList) : Op → Option TodoList
  | .add item initial_load now =>
    match l.add_item item initial_load now with
    | .ok (l1, _) => some l1
    | .error _ => none
  | .remove oid now =>
    match l.remove_item oid now with
    | .ok (l1, _) => some l1
    | .error _ => none
  | .update oid text priority tags now =>
    match l.update_item oid text priority tags now with
    | .ok r => some r.list
    | .error _ => none
  | .complete oid set_complete now =>
    match l.complete_item oid set_complete now with
    | .ok (l1, _) => some l1
    | .error _ => none

/-- Runs a sequence of calls from a starting state. -/
def runOps : TodoList → List Op → Option TodoList
  | l, [] => some l
  | l, op :: rest =>
    match applyOp l op with
    | some l1 => runOps l1 rest
    | none => none

/-- The derived-index invariant: `tag_set` holds exactly the tags of the
items currently in the list. -/
def TodoList.tagsInv (l : TodoList) : Prop :=
  ∀ x : String, x ∈ l.tag_set ↔ ∃ i ∈ l.items, x ∈ i.tags

/-- C7: `TodoMatcher.matches` returns true iff every non-`None` criterion
holds: all matcher tags belong to the item, the priority agrees when given,
and the finished state agrees when given; a matcher with no criteria
matches every item. -/
theorem todoMatcher_matches_iff (m : TodoMatcher) (item : Todo) :
    (m.matches item = true ↔
      ((∀ t ∈ m.tags.getD ∅, t ∈ item.tags) ∧
       (m.priority = none ∨ m.priority = some item.priority) ∧
       (m.finished = none ∨ m.finished = some item.finished))) ∧
    ((m.tags = none ∨ m.tags = some ∅) → m.priority = none → m.finished = none →
      m.matches item = true) := by
  constructor
  · obtain ⟨tags, priority, finished⟩ := m
    cases priority <;> cases finished <;>
      simp [TodoMatcher.matches, Finset.subset_iff] <;> tauto
  · rintro (h | h) h2 h3 <;>
      simp [TodoMatcher.matches, h, h2, h3]

/-- Closed instance of `todoMatcher_matches_iff`: the no-criteria matcher
accepts a concrete item. -/
theorem todoMatcher_matches_iff_witness :
    TodoMatcher.matches ⟨none, none, none⟩ (Todo.make "a" none none none none none none) = true :=
  (todoMatcher_matches_iff ⟨none, none, none⟩
    (Todo.make "a" none none none none none none)).2 (Or.inl rfl) rfl rfl

/-- C10: `Todo._validate` rejects every todo whose `created_date` is `None`,
even when all other fields are valid; conversely validation succeeds only
for items with a stamped `created_date` (i.e. items that have been through
`add_item`). -/
theorem todo_validate_requires_created_date :
    (∀ t : Todo, t.text ≠ "" → t.priority ∈ PriorityEnum.values →
      (∀ tag ∈ t.tags, tag ≠ "") → t.created_date = none →
      t.validate = .error (.validationError "Non float created_date")) ∧
    (∀ t : Todo, t.validate = .ok () → t.created_date ≠ none) := by
  constructor
  · intro t htext hprio htags hcd
    have htags2 : "" ∉ t.tags := fun hmem => htags "" hmem rfl
    simp [Todo.validate, htext, hprio, htags, htags2, hcd]
  · intro t hok
    by_contra hcd
    unfold Todo.validate at hok
    split_ifs at hok

/-- Closed instance of `todo_validate_requires_created_date`: a freshly
constructed, otherwise valid todo fails validation. -/
theorem todo_validate_requires_created_date_witness :
    Todo.validate (Todo.make "buy milk" none none none none none none) =
      .error (.validationError "Non float created_date") :=
  todo_validate_requires_created_date.1 (Todo.make "buy milk" none none none none none none)
    (by decide) (by decide) (by decide) rfl


/-- C1: for an oid present in the list, `complete_item(oid, True)` fails
with `IllegalStateError` exactly on an already-finished item and otherwise
finishes it with `finished_date = now`; `complete_item(oid, False)` fails
exactly on a not-finished item and otherwise clears `finished` and
`finished_date`. -/
theorem complete_item_lifecycle (l : TodoList) (oid : Nat) (item : Todo) (now : Nat)
    (h : l.get_item oid = .ok item) :
    (item.finished = true →
      l.complete_item oid true now =
        .error (.illegalStateError "TodoList.complete_todo"
          "specified todo was already completed")) ∧
    (item.finished = false →
      l.complete_item oid false now =
        .error (.illegalStateError "TodoList.complete_todo"
          "specified todo was not already completed")) ∧
    (item.finished = false → ∃ l2,
      l.complete_item oid true now =
        .ok (l2, { item with finished := true, finished_date := some now })) ∧
    (item.finished = true → ∃ l2,
      l.complete_item oid false now =
        .ok (l2, { item with finished := false, finished_date := none })) := by
  refine ⟨fun hf => ?_, fun hf => ?_,
    fun hf => ⟨{ (l.mark_modified now) with
      items := replaceByOid l.items oid
        { item with finished := true, finished_date := some now } }, ?_⟩,
    fun hf => ⟨{ l with
      items := replaceByOid l.items oid
        { item with finished := false, finished_date := none } }, ?_⟩⟩ <;>
  simp [TodoList.complete_item, TodoList.mark_modified, h, hf]

/-- Closed instance of `complete_item_lifecycle`: completing a concrete
unfinished todo succeeds with the completion timestamp set. -/
theorem complete_item_lifecycle_witness :
    ∃ l2, TodoList.complete_item
        { version := none, modified_date := some 5, modified := true, next_oid := 2,
          items := [{ oid := some 1, text := "a", priority := 2, tags := ∅,
                      finished := false, created_date := some 5, finished_date := none }],
          tag_set := ∅ } 1 true 9 =
      .ok (l2, { oid := some 1, text := "a", priority := 2, tags := ∅,
                 finished := true, created_date := some 5, finished_date := some 9 }) :=
  (complete_item_lifecycle
    { version := none, modified_date := some 5, modified := true, next_oid := 2,
      items := [{ oid := some 1, text := "a", priority := 2, tags := ∅,
                  finished := false, created_date := some 5, finished_date := none }],
      tag_set := ∅ } 1
    { oid := some 1, text := "a", priority := 2, tags := ∅,
      finished := false, created_date := some 5, finished_date := none } 9 rfl).2.2.1 rfl

/-- C6: `complete_item` marks the list modified (advancing
`modified_date`) when completing an unfinished item, but un-completing a
finished item leaves the modification state untouched while still clearing
`finished` and `finished_date`. -/
theorem complete_item_modified_asymmetry (l : TodoList) (oid : Nat) (item : Todo) (now : Nat)
    (h : l.get_item oid = .ok item) :
    (item.finished = false → ∃ l2 it2,
      l.complete_item oid true now = .ok (l2, it2) ∧
      l2.modified = true ∧ l2.modified_date = some now) ∧
    (item.finished = true → ∃ l2 it2,
      l.complete_item oid false now = .ok (l2, it2) ∧
      l2.modified = l.modified ∧ l2.modified_date = l.modified_date ∧
      it2.finished = false ∧ it2.finished_date = none) := by
  refine ⟨fun hf => ⟨{ (l.mark_modified now) with
      items := replaceByOid l.items oid
        { item with finished := true, finished_date := some now } },
      { item with finished := true, finished_date := some now }, ?_, rfl, rfl⟩,
    fun hf => ⟨{ l with
      items := replaceByOid l.items oid
        { item with finished := false, finished_date := none } },
      { item with finished := false, finished_date := none }, ?_, rfl, rfl, rfl, rfl⟩⟩ <;>
  simp [TodoList.complete_item, TodoList.mark_modified, h, hf]

/-- Closed instance of `complete_item_modified_asymmetry`: un-completing a
concrete finished todo leaves the modified flag and date unchanged. -/
theorem complete_item_modified_asymmetry_witness :
    ∃ l2 it2, TodoList.complete_item
        { version := none, modified_date := some 5, modified := false, next_oid := 2,
          items := [{ oid := some 1, text := "a", priority := 2, tags := ∅,
                      finished := true, created_date := some 5, finished_date := some 7 }],
          tag_set := ∅ } 1 false 9 = .ok (l2, it2) ∧
      l2.modified = false ∧ l2.modified_date = some 5 ∧
      it2.finished = false ∧ it2.finished_date = none :=
  (complete_item_modified_asymmetry
    { version := none, modified_date := some 5, modified := false, next_oid := 2,
      items := [{ oid := some 1, text := "a", priority := 2, tags := ∅,
                  finished := true, created_date := some 5, finished_date := some 7 }],
      tag_set := ∅ } 1
    { oid := some 1, text := "a", priority := 2, tags := ∅,
      finished := true, created_date := some 5, finished_date := some 7 } 9 rfl).2 rfl


/-- C2: `add_item` with `initial_load = False` rejects items arriving with
an oid, a `created_date` or `finished` set; otherwise it assigns the next
oid, stamps `created_date` with the add-time clock, keeps `finished`
false, marks the list modified, appends the item and returns it. -/
theorem add_item_fresh (l : TodoList) (item : Todo) (now : Nat) :
    ((item.oid ≠ none ∨ item.created_date ≠ none ∨ item.finished = true) →
      ∃ op msg, l.add_item item false now = .error (.illegalStateError op msg)) ∧
    (item.oid = none → item.created_date = none → item.finished = false →
      ∃ l2 it2, l.add_item item false now = .ok (l2, it2) ∧
        it2.oid = some l.next_oid ∧ it2.created_date = some now ∧ it2.finished = false ∧
        it2.text = item.text ∧ it2.priority = item.priority ∧ it2.tags = item.tags ∧
        l2.modified = true ∧ l2.modified_date = some now ∧
        l2.items = l.items ++ [it2] ∧ l2.next_oid = l.next_oid + 1) := by
  constructor
  · rintro (hbad | hbad | hbad)
    · obtain ⟨x, hx⟩ := Option.ne_none_iff_exists.mp hbad
      exact ⟨"ItemList.add_item", "new item cannot have an oid",
        by simp [TodoList.add_item, TodoList.add_item_base, hx.symm]⟩
    · cases hoid : item.oid with
      | some x => exact ⟨"ItemList.add_item", "new item cannot have an oid",
          by simp [TodoList.add_item, TodoList.add_item_base, hoid]⟩
      | none => exact ⟨"TodoList.add_item", "new item cant have created date", by
          simp [TodoList.add_item, TodoList.add_item_base, TodoList.mark_modified, hoid, hbad]⟩
    · cases hoid : item.oid with
      | some x => exact ⟨"ItemList.add_item", "new item cannot have an oid",
          by simp [TodoList.add_item, TodoList.add_item_base, hoid]⟩
      | none => cases hcd : item.created_date with
        | some d => exact ⟨"TodoList.add_item", "new item cant have created date", by
            simp [TodoList.add_item, TodoList.add_item_base, TodoList.mark_modified, hoid, hcd]⟩
        | none => exact ⟨"TodoList.add_item", "new item cannot be finished already", by
            simp [TodoList.add_item, TodoList.add_item_base, TodoList.mark_modified,
              hoid, hcd, hbad]⟩
  · intro hoid hcd hfin
    set it2 : Todo :=
      { item with oid := some l.next_oid, created_date := some now, finished := false }
    set l2 : TodoList :=
      { version := l.version, modified_date := some now, modified := true,
        next_oid := l.next_oid + 1, items := l.items ++ [it2],
        tag_set := l.tag_set ∪ item.tags }
    refine ⟨l2, it2, ?_, rfl, rfl, rfl, rfl, rfl, rfl, rfl, rfl, rfl, rfl⟩
    simp [TodoList.add_item, TodoList.add_item_base, TodoList.mark_modified,
      TodoList.update_object_maps, hoid, hcd, hfin, List.dropLast_concat, it2, l2]

/-- Closed instance of `add_item_fresh`: adding a concrete fresh todo to the
empty list issues oid 1 and stamps the clock value 5. -/
theorem add_item_fresh_witness :
    ∃ l2 it2,
      (TodoList.make none none).add_item (Todo.make "buy milk" none none none none none none)
        false 5 = .ok (l2, it2) ∧
      it2.oid = some 1 ∧ it2.created_date = some 5 ∧ it2.finished = false ∧
      l2.modified = true ∧ l2.items = [it2] :=
  match (add_item_fresh (TodoList.make none none)
      (Todo.make "buy milk" none none none none none none) 5).2 rfl rfl rfl with
  | ⟨l2, it2, heq, h1, h2, h3, _, _, _, h7, _, h9, _⟩ =>
    ⟨l2, it2, heq, h1, h2, h3, h7, h9⟩

/-- C4: `update_item` on a present oid overwrites exactly the non-`None`
arguments, leaves `finished`, `created_date`, `finished_date` and `oid`
untouched, returns the updated item, and leaves the modification state
unchanged when no field actually changed. -/
theorem update_item_frame (l : TodoList) (oid : Nat) (item : Todo) (text : Option String)
    (priority : Option Int) (tags : Option (Finset String)) (now : Nat)
    (h : l.get_item oid = .ok item) :
    ∃ r, l.update_item oid text priority tags now = .ok r ∧
      r.item.text = text.getD item.text ∧
      r.item.priority = priority.getD item.priority ∧
      r.item.tags = tags.getD item.tags ∧
      r.item.finished = item.finished ∧
      r.item.created_date = item.created_date ∧
      r.item.finished_date = item.finished_date ∧
      r.item.oid = item.oid ∧
      (r.item = item → r.list.modified = l.modified ∧ r.list.modified_date = l.modified_date) := by
  set item2 : Todo := { item with text := text.getD item.text, priority := priority.getD item.priority, tags := tags.getD item.tags } with hdef
  by_cases hch : item = item2
  · refine ⟨⟨{ l with items := replaceByOid l.items oid item2 }, item2, false⟩, ?_,
      rfl, rfl, rfl, rfl, rfl, rfl, rfl, fun _ => ⟨rfl, rfl⟩⟩
    simp only [TodoList.update_item, h]
    rw [← hdef, if_neg (fun hne => hne hch)]
  · refine ⟨⟨(({ l with items := replaceByOid l.items oid item2 } :
        TodoList).mark_modified now).recompute_object_maps, item2, true⟩, ?_,
      rfl, rfl, rfl, rfl, rfl, rfl, rfl, fun heq => (hch heq.symm).elim⟩
    simp only [TodoList.update_item, h]
    rw [← hdef, if_pos hch]

/-- Closed instance of `update_item_frame`: updating only the text of a
concrete todo keeps its tags, completion state and dates. -/
theorem update_item_frame_witness :
    ∃ r, TodoList.update_item
        { version := none, modified_date := some 5, modified := true, next_oid := 2,
          items := [{ oid := some 1, text := "a", priority := 2, tags := ∅,
                      finished := false, created_date := some 5, finished_date := none }],
          tag_set := ∅ } 1 (some "b") none none 6 = .ok r ∧
      r.item.text = "b" ∧ r.item.priority = 2 ∧ r.item.finished = false ∧
      r.item.created_date = some 5 ∧ r.item.oid = some 1 :=
  match update_item_frame
      { version := none, modified_date := some 5, modified := true, next_oid := 2,
        items := [{ oid := some 1, text := "a", priority := 2, tags := ∅,
                    finished := false, created_date := some 5, finished_date := none }],
        tag_set := ∅ } 1
      { oid := some 1, text := "a", priority := 2, tags := ∅,
        finished := false, created_date := some 5, finished_date := none }
      (some "b") none none 6 rfl with
  | ⟨r, heq, h1, h2, _, h4, h5, _, h7, _⟩ => ⟨r, heq, h1, h2, h4, h5, h7⟩

/-- A concrete one-item list refuting the tags-only recompute claim. -/
def sampleTaggedItem : Todo :=
  { oid := some 1, text := "a", priority := 2, tags := {"x"},
    finished := false, created_date := some 5, finished_date := none }

/-- The list holding `sampleTaggedItem`. -/
def sampleTaggedList : TodoList :=
  { version := none, modified_date := some 5, modified := true, next_oid := 2,
    items := [sampleTaggedItem], tag_set := {"x"} }

/-- C5 counterexample: updating only the text of a concrete item triggers
the recomputation branch even though the tags are unchanged, refuting the
claim that recomputation fires only on a tag change. -/
theorem update_item_recompute_counterexample :
    ∃ r, sampleTaggedList.update_item 1 (some "b") none none 6 = .ok r ∧
      r.recomputed = true ∧
      sampleTaggedList.get_item 1 = .ok sampleTaggedItem ∧
      r.item.tags = sampleTaggedItem.tags := by
  refine ⟨⟨((({ sampleTaggedList with items := [{ sampleTaggedItem with text := "b" }] } : TodoList).mark_modified 6)).recompute_object_maps, { sampleTaggedItem with text := "b" }, true⟩, ?_, rfl, rfl, rfl⟩
  simp [TodoList.update_item, TodoList.get_item, sampleTaggedList, sampleTaggedItem,
    replaceByOid, TodoList.mark_modified, TodoList.recompute_object_maps, List.find?]

/-- C5 amended: `update_item` fires `_mark_modified` and
`_recompute_object_maps` exactly when some field of the item actually
changed (the updated item differs from the pre-update snapshot); in
particular re-setting every argument to its existing value does not
trigger recomputation. -/
theorem update_item_recompute_amended (l : TodoList) (oid : Nat) (item : Todo)
    (text : Option String) (priority : Option Int) (tags : Option (Finset String)) (now : Nat)
    (h : l.get_item oid = .ok item) :
    ∃ r, l.update_item oid text priority tags now = .ok r ∧
      (r.recomputed = true ↔ r.item ≠ item) ∧
      ((text = none ∨ text = some item.text) → (priority = none ∨ priority = some item.priority) →
        (tags = none ∨ tags = some item.tags) → r.recomputed = false) := by
  set item2 : Todo := { item with text := text.getD item.text, priority := priority.getD item.priority, tags := tags.getD item.tags } with hdef
  by_cases hch : item = item2
  · refine ⟨⟨{ l with items := replaceByOid l.items oid item2 }, item2, false⟩, ?_, ?_,
      fun _ _ _ => rfl⟩
    · simp only [TodoList.update_item, h]
      rw [← hdef, if_neg (fun hne => hne hch)]
    · simp [← hch]
  · refine ⟨⟨(({ l with items := replaceByOid l.items oid item2 } :
        TodoList).mark_modified now).recompute_object_maps, item2, true⟩, ?_, ?_, ?_⟩
    · simp only [TodoList.update_item, h]
      rw [← hdef, if_pos hch]
    · simpa using Ne.symm hch
    · intro h1 h2 h3
      exfalso
      apply hch
      rw [hdef]
      obtain ⟨it_oid, it_text, it_prio, it_tags, it_fin, it_cd, it_fd⟩ := item
      rcases h1 with rfl | rfl <;> rcases h2 with rfl | rfl <;> rcases h3 with rfl | rfl <;> rfl

/-- Closed instance of `update_item_recompute_amended`: re-setting the text
of a concrete item to its current value does not recompute. -/
theorem update_item_recompute_amended_witness :
    ∃ r, sampleTaggedList.update_item 1 (some "a") none none 6 = .ok r ∧
      r.recomputed = false :=
  match update_item_recompute_amended sampleTaggedList 1 sampleTaggedItem
      (some "a") none none 6 rfl with
  | ⟨r, heq, _, hfalse⟩ => ⟨r, heq, hfalse (Or.inr rfl) (Or.inl rfl) (Or.inl rfl)⟩

/-- Membership in the tag-set fold used by `_recompute_object_maps`. -/
lemma mem_foldl_union (xs : List Todo) (s : Finset String) (x : String) :
    x ∈ xs.foldl (fun acc i => acc ∪ i.tags) s ↔ x ∈ s ∨ ∃ i ∈ xs, x ∈ i.tags := by
  induction xs generalizing s with
  | nil => simp
  | cons a rest ih =>
    rw [List.foldl_cons, ih]
    simp [Finset.mem_union, or_assoc]

/-- Replacing the found item by itself leaves the list unchanged. -/
lemma replaceByOid_self (xs : List Todo) (oid : Nat) (a : Todo)
    (hf : xs.find? (fun i => i.oid == some oid) = some a) :
    replaceByOid xs oid a = xs := by
  induction xs with
  | nil => simp at hf
  | cons hd rest ih =>
    cases hm : (hd.oid == some oid) with
    | true =>
      have hfind : (hd :: rest).find? (fun i => i.oid == some oid) = some hd :=
        List.find?_cons_of_pos rest hm
      rw [hfind, Option.some.injEq] at hf
      subst hf
      simp [replaceByOid, hm]
    | false =>
      have hfind : (hd :: rest).find? (fun i => i.oid == some oid) =
          rest.find? (fun i => i.oid == some oid) :=
        List.find?_cons_of_neg rest (by simp [hm])
      rw [hfind] at hf
      simp [replaceByOid, hm, ih hf]

/-- Replacing the found item by one with the same tags preserves which tags
occur in the list. -/
lemma exists_mem_replaceByOid_tags_eq (xs : List Todo) (oid : Nat) (a b : Todo)
    (hf : xs.find? (fun i => i.oid == some oid) = some b) (htags : a.tags = b.tags) (x : String) :
    (∃ i ∈ replaceByOid xs oid a, x ∈ i.tags) ↔ ∃ i ∈ xs, x ∈ i.tags := by
  induction xs with
  | nil => simp at hf
  | cons hd rest ih =>
    cases hm : (hd.oid == some oid) with
    | true =>
      have hfind : (hd :: rest).find? (fun i => i.oid == some oid) = some hd :=
        List.find?_cons_of_pos rest hm
      rw [hfind, Option.some.injEq] at hf
      subst hf
      simp [replaceByOid, hm, htags]
    | false =>
      have hfind : (hd :: rest).find? (fun i => i.oid == some oid) =
          rest.find? (fun i => i.oid == some oid) :=
        List.find?_cons_of_neg rest (by simp [hm])
      rw [hfind] at hf
      simp [replaceByOid, hm, ih hf]

/-- A list whose `tag_set` equals the recomputation fold satisfies the
invariant. -/
lemma tagsInv_of_foldl (l : TodoList)
    (h : l.tag_set = l.items.foldl (fun s i => s ∪ i.tags) ∅) : l.tagsInv := by
  intro x
  rw [h, mem_foldl_union]
  simp

/-- Shape of a successful `add_item`: the item is appended and its tags are
unioned into `tag_set`, on both the fresh and the initial-load path. -/
lemma add_item_ok_shape (l : TodoList) (item : Todo) (il : Bool) (now : Nat)
    (res : TodoList × Todo) (h : l.add_item item il now = .ok res) :
    res.1.items = l.items ++ [res.2] ∧ res.1.tag_set = l.tag_set ∪ res.2.tags := by
  cases il with
  | true =>
    cases hoid : item.oid with
    | none => simp [TodoList.add_item, TodoList.add_item_base, hoid] at h
    | some o =>
      simp [TodoList.add_item, TodoList.add_item_base, TodoList.update_object_maps, hoid] at h
      subst h
      simp
  | false =>
    cases hoid : item.oid with
    | some o => simp [TodoList.add_item, TodoList.add_item_base, hoid] at h
    | none =>
      cases hcd : item.created_date with
      | some d =>
        simp [TodoList.add_item, TodoList.add_item_base, TodoList.mark_modified, hoid, hcd] at h
      | none =>
        cases hfin : item.finished with
        | true =>
          simp [TodoList.add_item, TodoList.add_item_base, TodoList.mark_modified,
            hoid, hcd, hfin] at h
        | false =>
          simp [TodoList.add_item, TodoList.add_item_base, TodoList.mark_modified,
            TodoList.update_object_maps, hoid, hcd, hfin, List.dropLast_concat] at h
          subst h
          simp

/-- Shape of a successful `complete_item`: the fetched item is replaced by
one with the same tags and `tag_set` is untouched. -/
lemma complete_item_ok_shape (l : TodoList) (oid : Nat) (sc : Bool) (now : Nat)
    (res : TodoList × Todo) (h : l.complete_item oid sc now = .ok res) :
    ∃ item, l.items.find? (fun i => i.oid == some oid) = some item ∧
      res.1.items = replaceByOid l.items oid res.2 ∧ res.2.tags = item.tags ∧
      res.1.tag_set = l.tag_set := by
  cases hfind : l.items.find? (fun i => i.oid == some oid) with
  | none => simp [TodoList.complete_item, TodoList.get_item, hfind] at h
  | some item =>
    refine ⟨item, rfl, ?_⟩
    cases sc with
    | true =>
      cases hfin : item.finished with
      | true => simp [TodoList.complete_item, TodoList.get_item, hfind, hfin] at h
      | false =>
        simp [TodoList.complete_item, TodoList.get_item, TodoList.mark_modified,
          hfind, hfin] at h
        subst h
        simp
    | false =>
      cases hfin : item.finished with
      | false => simp [TodoList.complete_item, TodoList.get_item, hfind, hfin] at h
      | true =>
        simp [TodoList.complete_item, TodoList.get_item, hfind, hfin] at h
        subst h
        simp

/-- Shape of a successful `remove_item`: the surviving `tag_set` is the full
recomputation fold over the surviving items. -/
lemma remove_item_ok_shape (l : TodoList) (oid : Nat) (now : Nat)
    (res : TodoList × Todo) (h : l.remove_item oid now = .ok res) :
    res.1.tag_set = res.1.items.foldl (fun s i => s ∪ i.tags) ∅ := by
  cases hfind : l.items.find? (fun i => i.oid == some oid) with
  | none =>
    simp [TodoList.remove_item, TodoList.remove_item_base, TodoList.get_item, hfind] at h
  | some item =>
    simp [TodoList.remove_item, TodoList.remove_item_base, TodoList.get_item,
      TodoList.mark_modified, TodoList.recompute_object_maps, hfind] at h
    subst h
    simp

/-- Shape of a successful `update_item`: either the maps were fully
recomputed from the new items, or nothing changed at all. -/
lemma update_item_ok_shape (l : TodoList) (oid : Nat) (text : Option String)
    (priority : Option Int) (tags : Option (Finset String)) (now : Nat)
    (res : UpdateResult) (h : l.update_item oid text priority tags now = .ok res) :
    (res.list.tag_set = res.list.items.foldl (fun s i => s ∪ i.tags) ∅) ∨
    (res.list.items = l.items ∧ res.list.tag_set = l.tag_set) := by
  cases hfind : l.items.find? (fun i => i.oid == some oid) with
  | none => simp [TodoList.update_item, TodoList.get_item, hfind] at h
  | some item =>
    simp only [TodoList.update_item, TodoList.get_item, hfind] at h
    split at h
    · left
      injection h with h
      subst h
      simp [TodoList.recompute_object_maps, TodoList.mark_modified]
    · right
      injection h with h
      subst h
      have hsame : item = { item with text := text.getD item.text, priority := priority.getD item.priority, tags := tags.getD item.tags } := by
        by_contra hne
        exact absurd hne (by assumption)
      constructor
      · exact replaceByOid_self l.items oid _ (hsame ▸ hfind)
      · rfl

/-- Every successful operation preserves the tag-set invariant. -/
lemma applyOp_tagsInv (l l2 : TodoList) (op : Op) (hinv : l.tagsInv)
    (h : applyOp l op = some l2) : l2.tagsInv := by
  cases op with
  | add item il now =>
    cases hcall : l.add_item item il now with
    | error e => simp [applyOp, hcall] at h
    | ok res =>
      obtain ⟨shape_items, shape_tags⟩ := add_item_ok_shape l item il now res hcall
      simp [applyOp, hcall] at h
      subst h
      intro x
      rw [shape_tags, Finset.mem_union, hinv x, shape_items]
      simp [List.mem_append, or_and_right, exists_or]
  | remove oid now =>
    cases hcall : l.remove_item oid now with
    | error e => simp [applyOp, hcall] at h
    | ok res =>
      have shape := remove_item_ok_shape l oid now res hcall
      simp [applyOp, hcall] at h
      subst h
      exact tagsInv_of_foldl _ shape
  | update oid text priority tags now =>
    cases hcall : l.update_item oid text priority tags now with
    | error e => simp [applyOp, hcall] at h
    | ok res =>
      rcases update_item_ok_shape l oid text priority tags now res hcall with
        shape | ⟨hitems, htags⟩ <;> simp [applyOp, hcall] at h <;> subst h
      · exact tagsInv_of_foldl _ shape
      · intro x
        rw [htags, hinv x, hitems]
  | complete oid sc now =>
    cases hcall : l.complete_item oid sc now with
    | error e => simp [applyOp, hcall] at h
    | ok res =>
      obtain ⟨item, hfind, hitems, htags, htagset⟩ :=
        complete_item_ok_shape l oid sc now res hcall
      simp [applyOp, hcall] at h
      subst h
      intro x
      rw [htagset, hinv x, hitems]
      exact (exists_mem_replaceByOid_tags_eq l.items oid res.2 item hfind htags x).symm

/-- Runs preserve the invariant. -/
lemma runOps_tagsInv (ops : List Op) (l0 l : TodoList) (hinv : l0.tagsInv)
    (h : runOps l0 ops = some l) : l.tagsInv := by
  induction ops generalizing l0 with
  | nil =>
    simp [runOps] at h
    subst h
    exact hinv
  | cons op rest ih =>
    cases hstep : applyOp l0 op with
    | none => simp [runOps, hstep] at h
    | some l1 =>
      simp only [runOps, hstep] at h
      exact ih l1 (applyOp_tagsInv l0 l1 op hinv hstep) h

/-- C8: starting from an empty list, after every successful sequence of
`add_item`, `remove_item`, `update_item` and `complete_item` calls the
derived `tag_set` holds exactly the union of the tags of the items in the
list. -/
theorem tag_set_invariant (ops : List Op) (l : TodoList)
    (h : runOps (TodoList.make none none) ops = some l) : l.tagsInv :=
  runOps_tagsInv ops (TodoList.make none none) l
    (fun x => by simp [TodoList.make, TodoList.tagsInv]) h

/-- Closed instance of `tag_set_invariant`: after one concrete add the tag
"x" is indexed iff some item carries it. -/
theorem tag_set_invariant_witness :
    ∃ l, runOps (TodoList.make none none)
        [Op.add (Todo.make "a" none (some {"x"}) none none none none) false 5] = some l ∧
      ("x" ∈ l.tag_set ↔ ∃ i ∈ l.items, "x" ∈ i.tags) := by
  have hsome : (runOps (TodoList.make none none)
      [Op.add (Todo.make "a" none (some {"x"}) none none none none) false 5]).isSome = true := by
    decide
  obtain ⟨l, hl⟩ := Option.isSome_iff_exists.mp hsome
  exact ⟨l, hl, tag_set_invariant _ l hl "x"⟩

/-- C9: `to_dict` emits exactly the documented keys — a single `todo_list`
object holding `version`, `modified_date` and `todos`, each todo record
holding exactly oid, tags, priority, text, finished, created_date,
finished_date — and every tag sequence is written as the sorted list of
the item's tag set. -/
theorem to_dict_schema (l : TodoList) :
    l.to_dict.map Prod.fst = ["todo_list"] ∧
    (∃ inner, l.to_dict.lookup "todo_list" = some (.jobj inner) ∧
      inner.map Prod.fst = ["version", "modified_date", "todos"] ∧
      inner.lookup "todos" = some (.jarr (l.items.map (fun e => .jobj e.to_dict)))) ∧
    (∀ e ∈ l.items,
      e.to_dict.map Prod.fst =
        ["oid", "tags", "priority", "text", "finished", "created_date", "finished_date"] ∧
      e.to_dict.lookup "tags" = some (.jstrlist (e.tags.sort (· ≤ ·))) ∧
      (e.tags.sort (· ≤ ·)).Sorted (· ≤ ·) ∧ (e.tags.sort (· ≤ ·)).toFinset = e.tags) := by
  refine ⟨rfl, ⟨_, rfl, rfl, rfl⟩, fun e _ => ⟨rfl, rfl, Finset.sort_sorted _ _, Finset.sort_toFinset _ _⟩⟩

/-- Closed instance of `to_dict_schema`: the record of a concrete tagged
item carries the seven keys and sorted tags. -/
theorem to_dict_schema_witness :
    ∃ ts, (Todo.to_dict { oid := some 1, text := "a", priority := 2, tags := {"y", "x"}, finished := false, created_date := some 5, finished_date := none }).lookup "tags" = some (.jstrlist ts) ∧ ts.Sorted (· ≤ ·) ∧ ts.toFinset = ({"y", "x"} : Finset String) := by
  have h := (to_dict_schema
    { version := none, modified_date := none, modified := false, next_oid := 2,
      items := [{ oid := some 1, text := "a", priority := 2, tags := {"y", "x"},
                  finished := false, created_date := some 5, finished_date := none }],
      tag_set := {"y", "x"} }).2.2
    { oid := some 1, text := "a", priority := 2, tags := {"y", "x"},
      finished := false, created_date := some 5, finished_date := none }
    (by simp)
  exact ⟨_, h.2.1, h.2.2.1, h.2.2.2⟩

/-- Decoding the record written for a todo restores the todo exactly (the
sorted tag list collapses back to the tag set). -/
lemma todo_from_to_dict (t : Todo) : Todo.from_dict t.to_dict = some t := by
  obtain ⟨oid, text, priority, tags, finished, created_date, finished_date⟩ := t
  cases oid <;> cases created_date <;> cases finished_date <;>
    simp [Todo.from_dict, Todo.to_dict, Todo.make, optNatToJ, jToOptNat, List.lookup,
      Finset.sort_toFinset]

/-- `add_item` with `initial_load` true on an item that carries an oid
appends it unchanged and unions in its tags. -/
lemma add_item_initial_load (l : TodoList) (item : Todo) (o : Nat) (now : Nat)
    (h : item.oid = some o) :
    l.add_item item true now = .ok
      ({ l with next_oid := max l.next_oid (o + 1), items := l.items ++ [item],
                tag_set := l.tag_set ∪ item.tags }, item) := by
  simp [TodoList.add_item, TodoList.add_item_base, TodoList.update_object_maps, h]

/-- The re-adding loop of `from_dict` restores the items in order and
accumulates exactly their tags. -/
lemma addAllFromJson_roundtrip (items : List Todo) (l : TodoList)
    (hoid : ∀ i ∈ items, i.oid ≠ none) :
    ∃ l2, addAllFromJson l (items.map (fun e => .jobj e.to_dict)) = .ok l2 ∧
      l2.items = l.items ++ items ∧
      l2.tag_set = items.foldl (fun s i => s ∪ i.tags) l.tag_set := by
  induction items generalizing l with
  | nil => exact ⟨l, rfl, by simp, rfl⟩
  | cons a rest ih =>
    have hoa : a.oid ≠ none := hoid a (by simp)
    obtain ⟨o, ho⟩ := Option.ne_none_iff_exists.mp hoa
    obtain ⟨l2, hrun, hitems, htags⟩ :=
      ih ({ l with next_oid := max l.next_oid (o + 1), items := l.items ++ [a], tag_set := l.tag_set ∪ a.tags }) (fun i hi => hoid i (by simp [hi]))
    refine ⟨l2, ?_, by simp [hitems], htags⟩
    simp only [List.map_cons, addAllFromJson, todo_from_to_dict,
      add_item_initial_load l a o 0 ho.symm]
    exact hrun

/-- C3: for a non-empty list satisfying the basic well-formedness of loaded
lists (every item has an oid, `tag_set` is the derived index),
`from_dict(to_dict(l))` reproduces the items field-for-field in order and
the same derived `tag_set`. -/
theorem todolist_roundtrip (l : TodoList) (hne : l.items ≠ [])
    (hoid : ∀ i ∈ l.items, i.oid ≠ none) (hts : l.tagsInv) :
    ∃ l2, TodoList.from_dict l.to_dict = .ok l2 ∧
      l2.items = l.items ∧ l2.tag_set = l.tag_set := by
  obtain ⟨l2, hrun, hitems, htags⟩ :=
    addAllFromJson_roundtrip l.items (TodoList.make l.version l.modified_date) hoid
  refine ⟨l2, ?_, by simpa [TodoList.make] using hitems, ?_⟩
  · have h1 : ∀ (a b c : JVal),
        List.lookup "modified_date" [("version", a), ("modified_date", b), ("todos", c)] =
          some b := fun a b c => rfl
    have h2 : ∀ (a b c : JVal),
        List.lookup "todos" [("version", a), ("modified_date", b), ("todos", c)] =
          some c := fun a b c => rfl
    cases hv : l.version <;> cases hmd : l.modified_date <;>
      simp [TodoList.from_dict, TodoList.to_dict, List.lookup, h1, h2,
        optStrToJ, optNatToJ, jToOptStr, jToOptNat, hv, hmd, ← hrun, TodoList.make]
  · rw [htags]
    apply Finset.ext
    intro x
    rw [mem_foldl_union]
    simp only [TodoList.make, Finset.not_mem_empty, false_or]
    exact (hts x).symm

/-- Closed instance of `todolist_roundtrip` on a concrete one-item list. -/
theorem todolist_roundtrip_witness :
    ∃ l2, TodoList.from_dict (TodoList.to_dict { version := none, modified_date := some 5, modified := true, next_oid := 2, items := [{ oid := some 1, text := "a", priority := 2, tags := {"x"}, finished := false, created_date := some 5, finished_date := none }], tag_set := {"x"} }) = .ok l2 ∧
      l2.items = [{ oid := some 1, text := "a", priority := 2, tags := {"x"}, finished := false, created_date := some 5, finished_date := none }] ∧
      l2.tag_set = ({"x"} : Finset String) :=
  todolist_roundtrip
    { version := none, modified_date := some 5, modified := true, next_oid := 2,
      items := [{ oid := some 1, text := "a", priority := 2, tags := {"x"},
                  finished := false, created_date := some 5, finished_date := none }],
      tag_set := {"x"} }
    (by simp) (by simp) (by intro x; simp [TodoList.tagsInv])
